import Mathlib

/-!
Verification of the event-scheduler genetic algorithm (`src/index.js`).

Shallow embedding conventions:
* A `DateTime` time slot `start + k hours` is represented by its index `k : Nat`
  (`DateTime.equals` becomes equality of indices, and
  `Math.floor(timeSlot.diff(EVENT_START_TIME,'hours').hours)` is the index itself).
* A `Room` reference held by an `Event` is represented by the room's index into
  `data.rooms`; every room reference in the program originates from that single
  array, so JavaScript reference equality `===` between rooms is index equality.
* `Math.random()` draws are modelled by an explicit stream of rationals
  (`RStream`), threaded through every operation in the source's call order.
  A real stream satisfies `ValidStream` (all draws in `[0,1)`).
* JavaScript out-of-range array reads yield `undefined`; they are modelled with
  `List.getD` and a junk default.  All claims are settled on inputs where the
  source never actually reads out of range (or the read is the point at issue).
* The schedule axis length `totalTimeSlots = floor((end - start).hours)` is kept
  as a field of `Data`; the source computes it from two module-level globals set
  by the `Data` constructor, which is identical for the single-run claims here.
-/

namespace Scheduler

/-- `NUMB_OF_ELITE_EVENTS` from `src/index.js`. -/
def NUMB_OF_ELITE_EVENTS : Nat := 2

/-- `MUTATION_RATE` from `src/index.js` (0.2). -/
def MUTATION_RATE : ℚ := 1/5

/-- `TOURNAMENT_SELECTION_SIZE_EVENTS` from `src/index.js`. -/
def TOURNAMENT_SELECTION_SIZE_EVENTS : Nat := 5

/-- `POPULATION_SIZE` from `src/index.js`. -/
def POPULATION_SIZE : Nat := 20

/-- `MAX_GENERATIONS` from `src/index.js`. -/
def MAX_GENERATIONS : Nat := 200

/-- A stream of `Math.random()` results. -/
def RStream : Type := Nat → ℚ

/-- The next `Math.random()` value of the stream. -/
def RStream.head (s : RStream) : ℚ := s 0

/-- The stream after consuming one `Math.random()` value. -/
def RStream.tail (s : RStream) : RStream := fun n => s (n + 1)

/-- A faithful random stream: every draw lies in `[0,1)`, as `Math.random()` does. -/
def ValidStream (s : RStream) : Prop := ∀ n, 0 ≤ s n ∧ s n < 1

/-- `Math.floor(q * len)` as a natural-number index. -/
def randIndex (q : ℚ) (len : Nat) : Nat := (Int.floor (q * len)).toNat

/-- `Room`: number and availability schedule (`src/index.js` lines 61-75). -/
structure Room where
  number : String
  availabilitySchedule : List Bool
deriving Repr, DecidableEq

/-- `Room.isAvailable` (line 71-74): index the schedule by the slot index; an
out-of-range JavaScript read yields `undefined`, which is falsy, hence the
`false` default. -/
def Room.isAvailable (r : Room) (slot : Nat) : Bool :=
  r.availabilitySchedule.getD slot false

/-- An `Event` of a schedule after assignment: id, name, room reference
(index into `data.rooms`) and time-slot index.  The source constructs events
with `null` room/slot and assigns both before any read (in `initialize`). -/
structure Event where
  id : Nat
  name : String
  room : Nat
  timeSlot : Nat
deriving Repr, DecidableEq

/-- Junk value standing for JavaScript `undefined` at out-of-range event reads. -/
def junkEvent : Event := { id := 0, name := "", room := 0, timeSlot := 0 }

/-- Junk value standing for `undefined` at out-of-range room reads. -/
def junkRoom : Room := { number := "", availabilitySchedule := [] }

/-- An entry of `Data._events`: id and name only (their room/slot stay `null`). -/
structure ProtoEvent where
  id : Nat
  name : String
deriving Repr, DecidableEq

/-- The problem instance built by the `Data` constructor (lines 78-120). -/
structure Data where
  rooms : List Room
  events : List ProtoEvent
  totalTimeSlots : Nat
deriving Repr, DecidableEq

/-- The default `EVENT_NAMES` of the `Data` constructor (lines 105-106). -/
def defaultEventNames : List String :=
  ["Speed Programming", "Speed Wiring", "Cyber Quiz", "SDP Evaluation",
   "Poster Designing", "Website Designing", "Database Designing", "Algorithm Design"]

/-- The `Data` constructor (lines 79-111) for a non-negative slot count.
`totalTimeSlots` stands for
`Math.floor(EVENT_END_TIME.diff(EVENT_START_TIME,'hours').hours)`; room `i`
starts with an all-`true` schedule and then has its first `i` slots set to
`false`, so slot `j` of room `i` is available iff `i ≤ j`.  A list of names
of positive length is kept, otherwise the default names are used.  The
constructor performs no validation, and for a *non-negative* slot count it
has no throwing path; the raw count is an `Int` that can be negative (end
time strictly before start time), in which case `Array(totalTimeSlots)` at
line 93 throws a `RangeError` as soon as one room is built — that eager
error path is modelled by `mkDataI` below, which wraps this function. -/
def mkData (initialAvailableRooms : Nat) (eventNames : List String)
    (totalTimeSlots : Nat) : Data :=
  let names := if eventNames.length > 0 then eventNames else defaultEventNames
  { rooms := (List.range initialAvailableRooms).map (fun i =>
      { number := "Room " ++ toString (i + 1)
        availabilitySchedule := (List.range totalTimeSlots).map (fun j => decide (i ≤ j)) })
    events := names.enum.map (fun p => { id := p.1, name := p.2 })
    totalTimeSlots := totalTimeSlots }

/-- The `Data` constructor over the raw, possibly negative, slot count
`Math.floor(EVENT_END_TIME.diff(EVENT_START_TIME,'hours').hours) : Int`.
When the count is negative (end time strictly before start time) and the room
loop runs at least once, line 93 evaluates `Array(totalTimeSlots)` with a
negative length and the JavaScript runtime throws
`RangeError: Invalid array length` — eagerly, inside the constructor.  With
no rooms the loop body never runs and construction completes; with a
non-negative count construction completes as `mkData`.  (For `i` of the
rooms loop exceeding the slot count, the `availabilitySchedule[j] = false`
writes extend the array beyond the slots ever read by `isAvailable`, which
only indexes `0..totalTimeSlots-1`; `mkData`'s length-`totalTimeSlots`
schedules agree with the source on every readable slot.) -/
def mkDataI (initialAvailableRooms : Nat) (eventNames : List String)
    (totalTimeSlots : Int) : Except String Data :=
  if totalTimeSlots < 0 ∧ 0 < initialAvailableRooms then
    Except.error "RangeError: Invalid array length"
  else
    Except.ok (mkData initialAvailableRooms eventNames totalTimeSlots.toNat)

/-- A schedule (`ScheduleEvents`) reduced to its assignment state: the list of
its events.  Fitness is a pure function of this state (see `fitness`); the
cache mechanics of the source are modelled separately by `CachedSched`. -/
structure Sched where
  events : List Event
deriving Repr, DecidableEq

/-- Junk value standing for `undefined` at out-of-range schedule reads. -/
def junkSched : Sched := { events := [] }

/-- The room referenced by an event (dereferencing the index). -/
def roomOf (d : Data) (e : Event) : Room := d.rooms.getD e.room junkRoom

/-- The conflict contribution of position `i` in `calculateFitness`
(lines 167-181): one penalty if the event's room is unavailable at its slot,
plus one penalty for every `j ≥ i` with equal time slot, different id and
identical (`===`) room. -/
def conflictsAt (d : Data) (evs : List Event) (i : Nat) : Nat :=
  (if (roomOf d (evs.getD i junkEvent)).isAvailable (evs.getD i junkEvent).timeSlot
   then 0 else 1)
  + (List.range evs.length).countP (fun j =>
      decide (i ≤ j)
      && decide ((evs.getD i junkEvent).timeSlot = (evs.getD j junkEvent).timeSlot)
      && decide (¬ (evs.getD i junkEvent).id = (evs.getD j junkEvent).id)
      && decide ((evs.getD i junkEvent).room = (evs.getD j junkEvent).room))

/-- `this._numOfConflicts` as recomputed by `calculateFitness` (lines 163-181). -/
def numOfConflicts (d : Data) (evs : List Event) : Nat :=
  ((List.range evs.length).map (conflictsAt d evs)).sum

/-- `calculateFitness` (line 183): `1 / (1.0 * (numOfConflicts + 1))`. -/
def fitness (d : Data) (sc : Sched) : ℚ :=
  1 / (numOfConflicts d sc.events + 1)

/-- Modelled from the spec (§4.1): "one penalty per Event whose Room is
unavailable at its assigned slot". -/
def specUnavailCount (d : Data) (evs : List Event) : Nat :=
  (List.range evs.length).countP (fun i =>
    ! (roomOf d (evs.getD i junkEvent)).isAvailable (evs.getD i junkEvent).timeSlot)

/-- Modelled from the spec (§4.1): "one penalty per unordered pair of distinct
Events sharing both Room and slot (each qualifying pair counted once)" —
counting each unordered pair at its increasing-index representative. -/
def specPairCount (evs : List Event) : Nat :=
  ((List.range evs.length).map (fun i =>
    (List.range evs.length).countP (fun j =>
      decide (i < j)
      && decide ((evs.getD i junkEvent).timeSlot = (evs.getD j junkEvent).timeSlot)
      && decide ((evs.getD i junkEvent).room = (evs.getD j junkEvent).room)))).sum

/-- Modelled from the spec (§4.1): the total conflict count `C`. -/
def specConflictCount (d : Data) (evs : List Event) : Nat :=
  specUnavailCount d evs + specPairCount evs

/-- `getRandomTimeSlot` (lines 186-197): the available time slots are
`start, start+1h, ...` strictly before the end time, i.e. the indices
`0, ..., totalTimeSlots - 1`; one random draw picks among them. -/
def getRandomTimeSlot (d : Data) (q : ℚ) : Nat :=
  (List.range d.totalTimeSlots).getD (randIndex q d.totalTimeSlots) 0

/-- The indices of the rooms available at `slot`
(`this._data.rooms.filter(room => room.isAvailable(timeSlot))`, line 200). -/
def availableRoomIdxs (d : Data) (slot : Nat) : List Nat :=
  (List.range d.rooms.length).filter
    (fun i => (d.rooms.getD i junkRoom).isAvailable slot)

/-- `getAvailableRoom` (lines 199-208) with its throwing branch made explicit:
if no room is available the source throws
`'No available rooms for the given time slot'`; otherwise one random draw picks
among the available rooms. -/
def getAvailableRoom (d : Data) (slot : Nat) (q : ℚ) : Except String Nat :=
  let avail := availableRoomIdxs d slot
  if avail.isEmpty then
    Except.error "No available rooms for the given time slot"
  else
    Except.ok (avail.getD (randIndex q avail.length) 0)

/-- Totalised `getAvailableRoom` used inside the evolution pipeline; on the
throwing branch (where the source aborts the whole run) it returns room `0`.
All run-level claims are settled under hypotheses, or on concrete inputs,
where the throwing branch is unreachable (see the claim about
`getAvailableRoom` never failing for well-formed instances). -/
def getAvailableRoomT (d : Data) (slot : Nat) (q : ℚ) : Nat :=
  let avail := availableRoomIdxs d slot
  avail.getD (randIndex q avail.length) 0

/-- The loop body of `initialize` (lines 151-161): for each problem event, in
order, draw a random time slot (one draw) and then a random available room
(one draw); the new event's id is the running `_eventNum` counter, which for a
fresh schedule is the position `i`. -/
def initEvents (d : Data) : Nat → List ProtoEvent → RStream → List Event × RStream
  | _, [], s => ([], s)
  | i, pe :: rest, s =>
      let slot := getRandomTimeSlot d s.head
      let room := getAvailableRoomT d slot s.tail.head
      let r := initEvents d (i + 1) rest s.tail.tail
      ({ id := i, name := pe.name, room := room, timeSlot := slot } :: r.1, r.2)

/-- `new ScheduleEvents(data).initialize()` (lines 124-161). -/
def initSchedule (d : Data) (s : RStream) : Sched × RStream :=
  let r := initEvents d 0 d.events s
  ({ events := r.1 }, r.2)

/-- The loop of `_crossoverSchedule` (lines 270-276), generic in the element
type so the pointer-level model below can reuse it: position `i` takes
parent 1's element when `Math.random() > 0.5` and parent 2's otherwise; `n`
counts the remaining positions (the freshly initialized child's length). -/
def crossoverGenes {α : Type} (p1 p2 : List α) (junk : α) :
    Nat → Nat → RStream → List α × RStream
  | _, 0, s => ([], s)
  | i, Nat.succ k, s =>
      let e := if (1 : ℚ)/2 < s.head then p1.getD i junk else p2.getD i junk
      let r := crossoverGenes p1 p2 junk (i + 1) k s.tail
      (e :: r.1, r.2)

/-- `_crossoverSchedule` (lines 268-279): build a freshly initialized child
(consuming its initialization draws), then overwrite every one of its
positions with parent 1's or parent 2's event by a coin flip per position. -/
def crossoverSchedule (d : Data) (p1 p2 : Sched) (s : RStream) : Sched × RStream :=
  let c := initSchedule d s
  let g := crossoverGenes p1.events p2.events junkEvent 0 c.1.events.length c.2
  ({ events := g.1 }, g.2)

/-- The loop of `_mutateSchedule` (lines 283-287), generic in the element type:
position `i` is replaced by the fresh schedule's element when
`MUTATION_RATE > Math.random()` and kept otherwise; `n` counts the remaining
positions (the target schedule's length). -/
def mutateGenes {α : Type} (target fresh : List α) (junk : α) :
    Nat → Nat → RStream → List α × RStream
  | _, 0, s => ([], s)
  | i, Nat.succ k, s =>
      let e := if s.head < MUTATION_RATE then fresh.getD i junk else target.getD i junk
      let r := mutateGenes target fresh junk (i + 1) k s.tail
      (e :: r.1, r.2)

/-- `_mutateSchedule` (lines 281-289): build a fresh schedule (consuming its
initialization draws), then per position of the target, with probability
`MUTATION_RATE`, replace the target's event by the fresh schedule's. -/
def mutateSchedule (d : Data) (m : Sched) (s : RStream) : Sched × RStream :=
  let f := initSchedule d s
  let g := mutateGenes m.events f.1.events junkEvent 0 m.events.length f.2
  ({ events := g.1 }, g.2)

/-- Descending-fitness comparator: the source sorts with
`(a, b) => b.fitness - a.fitness`. -/
def schedLE (d : Data) (a b : Sched) : Bool :=
  decide (fitness d b ≤ fitness d a)

/-- `population.schedules.sort((a, b) => b.fitness - a.fitness)`. -/
def sortByFitness (d : Data) (l : List Sched) : List Sched :=
  l.mergeSort (schedLE d)

/-- The pick loop of `_selectTournamentPopulation` (lines 293-297): `n` random
picks from `pop.schedules[Math.floor(Math.random() * POPULATION_SIZE)]`. -/
def pickRandoms (pop : List Sched) : Nat → RStream → List Sched × RStream
  | 0, s => ([], s)
  | Nat.succ k, s =>
      let x := pop.getD (randIndex s.head POPULATION_SIZE) junkSched
      let r := pickRandoms pop k s.tail
      (x :: r.1, r.2)

/-- `_selectTournamentPopulation(pop).schedules[0]` (lines 291-302 and its use
at lines 250-251): pick `TOURNAMENT_SELECTION_SIZE_EVENTS` schedules at random
with replacement, sort them by descending fitness and take the first. -/
def selectTournament (d : Data) (pop : List Sched) (s : RStream) : Sched × RStream :=
  let r := pickRandoms pop TOURNAMENT_SELECTION_SIZE_EVENTS s
  ((sortByFitness d r.1).getD 0 junkSched, r.2)

/-- The child-producing loop of `_crossoverPopulation` (lines 249-255): `n`
children, each from two independent tournament selections and one crossover. -/
def mkChildren (d : Data) (pop : List Sched) : Nat → RStream → List Sched × RStream
  | 0, s => ([], s)
  | Nat.succ k, s =>
      let p1 := selectTournament d pop s
      let p2 := selectTournament d pop p1.2
      let c := crossoverSchedule d p1.1 p2.1 p2.2
      let r := mkChildren d pop k c.2
      (c.1 :: r.1, r.2)

/-- `_crossoverPopulation` (lines 241-258): push the first
`NUMB_OF_ELITE_EVENTS` schedules of the (sorted) input population, then fill
with children up to `POPULATION_SIZE`. -/
def crossoverPopulation (d : Data) (pop : List Sched) (s : RStream) :
    List Sched × RStream :=
  let elites := (List.range NUMB_OF_ELITE_EVENTS).map (fun i => pop.getD i junkSched)
  let r := mkChildren d pop (POPULATION_SIZE - NUMB_OF_ELITE_EVENTS) s
  (elites ++ r.1, r.2)

/-- The loop of `_mutatePopulation` (lines 260-266): mutate the schedules at
indices `i, i+1, ...` (`n` of them) in place. -/
def mutateFrom (d : Data) : Nat → Nat → List Sched → RStream → List Sched × RStream
  | _, 0, pop, s => (pop, s)
  | i, Nat.succ k, pop, s =>
      let m := mutateSchedule d (pop.getD i junkSched) s
      mutateFrom d (i + 1) k (pop.set i m.1) m.2

/-- `_mutatePopulation` (lines 260-266): mutate indices
`NUMB_OF_ELITE_EVENTS .. POPULATION_SIZE - 1`. -/
def mutatePopulation (d : Data) (pop : List Sched) (s : RStream) :
    List Sched × RStream :=
  mutateFrom d NUMB_OF_ELITE_EVENTS (POPULATION_SIZE - NUMB_OF_ELITE_EVENTS) pop s

/-- `evolve(population)` (lines 237-239):
`this._mutatePopulation(this._crossoverPopulation(population))`. -/
def evolve (d : Data) (pop : List Sched) (s : RStream) : List Sched × RStream :=
  let c := crossoverPopulation d pop s
  mutatePopulation d c.1 c.2

/-- `new PopulationEvents(size, data)` (lines 223-228): `size` independently
initialized schedules, in order. -/
def initialPopulation (d : Data) : Nat → RStream → List Sched × RStream
  | 0, s => ([], s)
  | Nat.succ k, s =>
      let r := initSchedule d s
      let r2 := initialPopulation d k r.2
      (r.1 :: r2.1, r2.2)

/-- The fitness the driver reads for the best schedule,
`population.schedules[0].fitness` (head of a descending-sorted population). -/
def bestF (d : Data) (pop : List Sched) : ℚ :=
  fitness d (pop.getD 0 junkSched)

/-- The search loop of the request handler (lines 374-385), with fuel
`MAX_GENERATIONS - generationNumber`:  while the best fitness is not exactly
`1.0` and the budget is not exhausted, evolve and re-sort.  Besides the final
population it returns the number of generations used and, as instrumentation
for stating observational claims, the list of population snapshots at every
loop check (the final population included, as the last snapshot). -/
def searchLoop (d : Data) : Nat → List Sched → RStream → List Sched × Nat × List (List Sched)
  | 0, pop, _ => (pop, 0, [pop])
  | Nat.succ k, pop, s =>
      if fitness d (pop.getD 0 junkSched) = 1 then (pop, 0, [pop])
      else
        ((searchLoop d k (sortByFitness d (evolve d pop s).1) (evolve d pop s).2).1,
         (searchLoop d k (sortByFitness d (evolve d pop s).1) (evolve d pop s).2).2.1 + 1,
         pop :: (searchLoop d k (sortByFitness d (evolve d pop s).1) (evolve d pop s).2).2.2)

/-- The whole search of the request handler (lines 374-385): seed
`POPULATION_SIZE` schedules, sort descending by fitness, and run the loop with
the full `MAX_GENERATIONS` budget. -/
def runSearch (d : Data) (s : RStream) : List Sched × Nat × List (List Sched) :=
  let r := initialPopulation d POPULATION_SIZE s
  searchLoop d MAX_GENERATIONS (sortByFitness d r.1) r.2

/-! ### Cached-fitness model of `ScheduleEvents`

The source caches fitness in `_fitness` and guards it with `_isFitnessChanged`
(lines 124-149).  The flag is set on every read of the `events` *getter*
(line 134), never by the `Event` room/timeSlot *setters* (lines 47-53).  The
model below keeps the mutable state of one `ScheduleEvents` object explicit
and distinguishes a write performed through the getter path (as every engine
operation does: `sched.events[i] = e`) from a write performed through a
retained `Event`/array reference, which bypasses the getter. -/

/-- The mutable state of one `ScheduleEvents` object (lines 124-131). -/
structure CachedSched where
  data : Data
  events : List Event
  conflictsCache : Nat
  fitnessCache : ℚ
  isFitnessChanged : Bool
deriving Repr, DecidableEq

/-- A `ScheduleEvents` as the engine holds it right after construction over a
given assignment state: the constructor sets `_isFitnessChanged = true`,
`_fitness = -1`, `_numOfConflicts = 0`. -/
def mkCachedSched (d : Data) (evs : List Event) : CachedSched :=
  { data := d, events := evs, conflictsCache := 0, fitnessCache := -1,
    isFitnessChanged := true }

/-- The `events` getter (lines 133-136): set `_isFitnessChanged` and return
the internal array. -/
def CachedSched.getEvents (c : CachedSched) : CachedSched × List Event :=
  ({ c with isFitnessChanged := true }, c.events)

/-- The `fitness` getter (lines 142-149): recompute via `calculateFitness`
when the flag is set (which leaves the flag cleared), else return the cache. -/
def CachedSched.getFitness (c : CachedSched) : CachedSched × ℚ :=
  if c.isFitnessChanged then
    let n := numOfConflicts c.data c.events
    ({ c with
        conflictsCache := n
        fitnessCache := 1 / ((n : ℚ) + 1)
        isFitnessChanged := false },
     1 / ((n : ℚ) + 1))
  else (c, c.fitnessCache)

/-- A write to position `i` of the schedule performed through a retained
reference — e.g. `event.room = r` via the `Event` setter (lines 47-53) on an
event obtained earlier, or a write into a previously retained `events` array.
No getter runs, so the staleness flag is untouched. -/
def CachedSched.writeAliased (c : CachedSched) (i : Nat) (e : Event) : CachedSched :=
  { c with events := c.events.set i e }

/-- A write to position `i` performed by reading the `events` getter in the
same expression, as every engine mutation site does
(`sched.events[i] = e`): the getter read sets the staleness flag. -/
def CachedSched.writeViaGetter (c : CachedSched) (i : Nat) (e : Event) : CachedSched :=
  { c with events := c.events.set i e, isFitnessChanged := true }

/-! ### Pointer-level model of Event sharing

JavaScript `Event` objects live on a heap and chromosomes hold references to
them; `_crossoverSchedule` and `_mutateSchedule` copy *references* between
schedules (`crossoverSchedule.events[i] = schedule1.events[i]`, line 272).
The model below makes the heap explicit: a `Store` of event records addressed
by allocation index, and `PSched` chromosomes holding pointers.  Allocation
(`new Event`) appends to the store. -/

/-- The heap of allocated `Event` objects; a pointer is an index into it. -/
abbrev Store : Type := List Event

/-- A chromosome at the pointer level: the `_events` array holds references. -/
structure PSched where
  events : List Nat
deriving Repr, DecidableEq

/-- Dereference a pointer-level chromosome into its assignment state. -/
def derefSched (st : Store) (p : PSched) : Sched :=
  { events := p.events.map (fun q => st.getD q junkEvent) }

/-- The fitness of a pointer-level chromosome (its events dereferenced). -/
def pfitness (d : Data) (st : Store) (p : PSched) : ℚ :=
  fitness d (derefSched st p)

/-- `new ScheduleEvents(data).initialize()` at the pointer level: allocate the
fresh events (same draws as `initEvents`) at the end of the store and point
at them. -/
def pinitSchedule (d : Data) (st : Store) (s : RStream) : Store × PSched × RStream :=
  let r := initEvents d 0 d.events s
  (st ++ r.1, { events := (List.range r.1.length).map (fun k => st.length + k) }, r.2)

/-- `_crossoverSchedule` (lines 268-279) at the pointer level: build a freshly
initialized child, then overwrite each of its positions with parent 1's or
parent 2's event *reference* by a coin flip. -/
def pcrossoverSchedule (d : Data) (st : Store) (p1 p2 : PSched) (s : RStream) :
    Store × PSched × RStream :=
  let c := pinitSchedule d st s
  let g := crossoverGenes p1.events p2.events 0 0 c.2.1.events.length c.2.2
  (c.1, { events := g.1 }, g.2)

/-- `_mutateSchedule` (lines 281-289) at the pointer level: build a fresh
schedule, then per position of the target, with probability `MUTATION_RATE`,
replace the target's event reference by the fresh schedule's. -/
def pmutateSchedule (d : Data) (st : Store) (m : PSched) (s : RStream) :
    Store × PSched × RStream :=
  let f := pinitSchedule d st s
  let g := mutateGenes m.events f.2.1.events 0 0 m.events.length f.2.2
  (f.1, { events := g.1 }, g.2)

/-- Writing the fields of the `Event` object at pointer `p` (the room/timeSlot
setters, lines 47-53): an in-place update of the heap cell. -/
def storeWrite (st : Store) (p : Nat) (e : Event) : Store := st.set p e

/-! ## Fitness: basic bounds and agreement with the spec's conflict count -/

lemma fitness_def (d : Data) (sc : Sched) :
    fitness d sc = 1 / ((numOfConflicts d sc.events : ℚ) + 1) := rfl

lemma fitness_pos (d : Data) (sc : Sched) : 0 < fitness d sc := by
  rw [fitness_def]
  have h : (0 : ℚ) < (numOfConflicts d sc.events : ℚ) + 1 := by positivity
  exact one_div_pos.mpr h

lemma fitness_le_one (d : Data) (sc : Sched) : fitness d sc ≤ 1 := by
  rw [fitness_def]
  have h : (0 : ℚ) < (numOfConflicts d sc.events : ℚ) + 1 := by positivity
  rw [div_le_one h]
  exact le_add_of_nonneg_left (Nat.cast_nonneg _)

lemma fitness_eq_one_iff (d : Data) (sc : Sched) :
    fitness d sc = 1 ↔ numOfConflicts d sc.events = 0 := by
  rw [fitness_def]
  have h : (0 : ℚ) < (numOfConflicts d sc.events : ℚ) + 1 := by positivity
  rw [div_eq_one_iff_eq h.ne']
  constructor
  · intro hh
    have : (numOfConflicts d sc.events : ℚ) = 0 := by linarith
    exact_mod_cast this
  · intro hh
    rw [hh]
    norm_num

lemma sum_map_if_add (p : Nat → Bool) (g : Nat → Nat) (l : List Nat) :
    (l.map (fun i => (if p i then 0 else 1) + g i)).sum
      = l.countP (fun i => ! p i) + (l.map g).sum := by
  induction l with
  | nil => rfl
  | cons a t ih =>
    simp only [List.map_cons, List.sum_cons, List.countP_cons, ih]
    cases h : p a <;> simp [h] <;> omega

lemma id_ne_of_index_ne (evs : List Event) (hnd : (evs.map Event.id).Nodup)
    {i j : Nat} (hi : i < evs.length) (hj : j < evs.length) (hij : i ≠ j) :
    (evs.getD i junkEvent).id ≠ (evs.getD j junkEvent).id := by
  intro h
  apply hij
  have hinj := List.nodup_iff_injective_get.mp hnd
  have hi' : i < (evs.map Event.id).length := by simpa using hi
  have hj' : j < (evs.map Event.id).length := by simpa using hj
  have hgi : (evs.map Event.id).get ⟨i, hi'⟩ = (evs.getD i junkEvent).id := by
    rw [List.getD_eq_getElem evs junkEvent hi]
    simp
  have hgj : (evs.map Event.id).get ⟨j, hj'⟩ = (evs.getD j junkEvent).id := by
    rw [List.getD_eq_getElem evs junkEvent hj]
    simp
  have : (⟨i, hi'⟩ : Fin (evs.map Event.id).length) = ⟨j, hj'⟩ :=
    hinj (by rw [hgi, hgj, h])
  exact congrArg Fin.val this

lemma inner_count_eq_spec (evs : List Event)
    (hnd : (evs.map Event.id).Nodup) (i : Nat) (hi : i < evs.length) :
    (List.range evs.length).countP (fun j =>
      decide (i ≤ j)
      && decide ((evs.getD i junkEvent).timeSlot = (evs.getD j junkEvent).timeSlot)
      && decide (¬ (evs.getD i junkEvent).id = (evs.getD j junkEvent).id)
      && decide ((evs.getD i junkEvent).room = (evs.getD j junkEvent).room))
    = (List.range evs.length).countP (fun j =>
      decide (i < j)
      && decide ((evs.getD i junkEvent).timeSlot = (evs.getD j junkEvent).timeSlot)
      && decide ((evs.getD i junkEvent).room = (evs.getD j junkEvent).room)) := by
  apply List.countP_congr
  intro j hj
  rw [List.mem_range] at hj
  rcases lt_trichotomy i j with hlt | heq | hgt
  · have hne := id_ne_of_index_ne evs hnd hi hj (Nat.ne_of_lt hlt)
    simp only [List.getD, List.get?_eq_getElem?] at hne
    simp [Nat.le_of_lt hlt, hlt, hne]
  · subst heq
    simp
  · simp [Nat.not_le_of_lt hgt, Nat.lt_asymm hgt]

lemma numOfConflicts_eq_spec (d : Data) (evs : List Event)
    (hnd : (evs.map Event.id).Nodup) :
    numOfConflicts d evs = specConflictCount d evs := by
  unfold numOfConflicts specConflictCount specUnavailCount specPairCount conflictsAt
  rw [sum_map_if_add]
  congr 1
  apply congrArg
  apply List.map_congr_left
  intro i hi
  rw [List.mem_range] at hi
  exact inner_count_eq_spec evs hnd i hi

/-- C1: for every chromosome with all events assigned (and, as the program
guarantees, pairwise-distinct event ids), the fitness read equals
`1 / (1 + C)` where `C` is the spec's conflict count (one penalty per
unavailable-room event plus one penalty per unordered conflicting pair);
consequently fitness lies in `(0, 1]` and equals `1` exactly when `C = 0`. -/
theorem C1_fitness_spec (d : Data) (sc : Sched)
    (hnd : (sc.events.map Event.id).Nodup) :
    fitness d sc = 1 / ((specConflictCount d sc.events : ℚ) + 1)
    ∧ 0 < fitness d sc
    ∧ fitness d sc ≤ 1
    ∧ (fitness d sc = 1 ↔ specConflictCount d sc.events = 0) := by
  have he := numOfConflicts_eq_spec d sc.events hnd
  refine ⟨?_, fitness_pos d sc, fitness_le_one d sc, ?_⟩
  · rw [fitness_def, he]
  · rw [fitness_eq_one_iff, he]

/-! ## Concrete inputs used by witnesses and counterexamples -/

/-- A one-room, one-slot, one-event instance. -/
def dOne : Data := mkData 1 ["A"] 1

/-- A one-room, two-slot, two-event instance. -/
def dTwo : Data := mkData 1 ["A", "B"] 2

/-- A one-room, one-slot, two-event instance: every schedule double-books. -/
def dPair : Data := mkData 1 ["A", "B"] 1

/-- Event "A" assigned room 0, slot 0. -/
def evA0 : Event := { id := 0, name := "A", room := 0, timeSlot := 0 }

/-- Event "B" (id 1) assigned room 0, slot 1. -/
def evB1 : Event := { id := 1, name := "B", room := 0, timeSlot := 1 }

/-- Event "B" (id 1) assigned room 0, slot 0. -/
def evB0 : Event := { id := 1, name := "B", room := 0, timeSlot := 0 }

/-- Event "A" re-assigned to the nonexistent room 5 (unavailable everywhere). -/
def evBad : Event := { id := 0, name := "A", room := 5, timeSlot := 0 }

/-- The constant random stream returning `q` forever. -/
def constStream (q : ℚ) : RStream := fun _ => q

lemma constStream_valid (q : ℚ) (h0 : 0 ≤ q) (h1 : q < 1) :
    ValidStream (constStream q) := fun _ => ⟨h0, h1⟩

/-- Witness for C1 at a concrete chromosome: two events with distinct ids in
the same room and slot of a one-room one-slot instance. -/
theorem C1_fitness_spec_witness :
    (([{ id := 0, name := "A", room := 0, timeSlot := 0 },
       { id := 1, name := "B", room := 0, timeSlot := 0 }] :
        List Event).map Event.id).Nodup
    ∧ (fitness (mkData 1 ["A", "B"] 1)
        { events := [{ id := 0, name := "A", room := 0, timeSlot := 0 },
                     { id := 1, name := "B", room := 0, timeSlot := 0 }] }
        = 1 / ((specConflictCount (mkData 1 ["A", "B"] 1)
            [{ id := 0, name := "A", room := 0, timeSlot := 0 },
             { id := 1, name := "B", room := 0, timeSlot := 0 }] : ℚ) + 1)
      ∧ 0 < fitness (mkData 1 ["A", "B"] 1)
          { events := [{ id := 0, name := "A", room := 0, timeSlot := 0 },
                       { id := 1, name := "B", room := 0, timeSlot := 0 }] }
      ∧ fitness (mkData 1 ["A", "B"] 1)
          { events := [{ id := 0, name := "A", room := 0, timeSlot := 0 },
                       { id := 1, name := "B", room := 0, timeSlot := 0 }] } ≤ 1
      ∧ (fitness (mkData 1 ["A", "B"] 1)
          { events := [{ id := 0, name := "A", room := 0, timeSlot := 0 },
                       { id := 1, name := "B", room := 0, timeSlot := 0 }] } = 1
          ↔ specConflictCount (mkData 1 ["A", "B"] 1)
              [{ id := 0, name := "A", room := 0, timeSlot := 0 },
               { id := 1, name := "B", room := 0, timeSlot := 0 }] = 0)) :=
  ⟨by decide, C1_fitness_spec (mkData 1 ["A", "B"] 1) _ (by decide)⟩

/-! ## C4: the `Data` constructor performs no validation -/

/-- C4 counterexample: constructing with room count `0`, an empty event list
and an end time equal to the start time (zero slots) — all three conditions
the claim says raise `InvalidProblemConfig` eagerly — completes without any
error and yields an instance with no rooms and the 8 default event names
substituted; the no-available-rooms error is instead raised mid-search, at
the first room draw of `initialize`/`_mutateSchedule`. -/
theorem C4_counterexample :
    mkDataI 0 [] 0 = Except.ok (mkData 0 [] 0)
    ∧ (mkData 0 [] 0).rooms = []
    ∧ (mkData 0 [] 0).events.map ProtoEvent.name = defaultEventNames
    ∧ getAvailableRoom (mkData 0 [] 0) 0 0
        = Except.error "No available rooms for the given time slot" := by
  refine ⟨?_, rfl, rfl, rfl⟩
  unfold mkDataI
  rw [if_neg (by omega), Int.toNat_zero]

/-- C4 amended: the `Data` constructor never raises `InvalidProblemConfig`
(that error kind does not exist in the program), and it validates none of the
three conditions.  Arm by arm: with room count `< 1` construction completes
with an empty rooms list (whatever the slot count), and then *every*
mid-search room draw fails with the no-available-rooms error; an empty event
list is silently replaced by the 8 default names (construction completing
whenever the slot count is non-negative); an end time *equal to* the start
time (zero slots) completes without error; only an end time *strictly before*
the start time (negative slot count), with at least one room to build, raises
eagerly — and what it raises is the runtime's `RangeError` from
`Array(totalTimeSlots)` at line 93, not `InvalidProblemConfig`. -/
theorem C4_no_validation (roomCount : Nat) (names : List String) (slots : Int) :
    (roomCount = 0 →
      ∃ d, mkDataI roomCount names slots = Except.ok d
        ∧ d.rooms = []
        ∧ ∀ (slot : Nat) (q : ℚ), getAvailableRoom d slot q
            = Except.error "No available rooms for the given time slot")
    ∧ (names = [] → 0 ≤ slots →
      ∃ d, mkDataI roomCount names slots = Except.ok d
        ∧ d.events.map ProtoEvent.name = defaultEventNames)
    ∧ (slots = 0 →
      ∃ d, mkDataI roomCount names slots = Except.ok d
        ∧ d.totalTimeSlots = 0)
    ∧ (slots < 0 → 0 < roomCount →
      mkDataI roomCount names slots
        = Except.error "RangeError: Invalid array length") := by
  refine ⟨?_, ?_, ?_, ?_⟩
  · intro hr
    subst hr
    refine ⟨mkData 0 names slots.toNat, ?_, rfl, fun _ _ => rfl⟩
    unfold mkDataI
    rw [if_neg (by omega)]
  · intro hn hs
    subst hn
    refine ⟨mkData roomCount [] slots.toNat, ?_, rfl⟩
    unfold mkDataI
    rw [if_neg (by omega)]
  · intro hs
    subst hs
    refine ⟨mkData roomCount names 0, ?_, rfl⟩
    unfold mkDataI
    rw [if_neg (by omega), Int.toNat_zero]
  · intro hs hr
    unfold mkDataI
    rw [if_pos ⟨hs, hr⟩]

/-- Witness for C4 amended, exercising every arm's hypotheses: the joint
degenerate configuration (no rooms, no names, zero slots) for the first three
arms, and one room with slot count `-1` (end strictly before start) for the
eager-`RangeError` arm. -/
theorem C4_no_validation_witness :
    ((0 : Nat) = 0
      ∧ ∃ d, mkDataI 0 [] 0 = Except.ok d
          ∧ d.rooms = []
          ∧ ∀ (slot : Nat) (q : ℚ), getAvailableRoom d slot q
              = Except.error "No available rooms for the given time slot")
    ∧ (([] : List String) = [] ∧ (0 : Int) ≤ 0
      ∧ ∃ d, mkDataI 0 [] 0 = Except.ok d
          ∧ d.events.map ProtoEvent.name = defaultEventNames)
    ∧ ((0 : Int) = 0
      ∧ ∃ d, mkDataI 0 [] 0 = Except.ok d ∧ d.totalTimeSlots = 0)
    ∧ ((-1 : Int) < 0 ∧ (0 : Nat) < 1
      ∧ mkDataI 1 ["A"] (-1) = Except.error "RangeError: Invalid array length") :=
  ⟨⟨rfl, (C4_no_validation 0 [] 0).1 rfl⟩,
   ⟨rfl, le_refl 0, (C4_no_validation 0 [] 0).2.1 rfl (le_refl 0)⟩,
   ⟨rfl, (C4_no_validation 0 [] 0).2.2.1 rfl⟩,
   ⟨by decide, by decide,
    (C4_no_validation 1 ["A"] (-1)).2.2.2 (by decide) (by decide)⟩⟩

/-! ## C7: fitness-cache staleness is observable after a direct setter write -/

/-- C7 counterexample: retain the events array (getter read), read fitness
(recomputed: `1`, conflict-free), then write event 1's time slot through the
retained reference — the `Event` setter invalidates nothing — and read fitness
again: the stale `1` is returned although the assignments now double-book and
recomputation gives `1/2`. -/
theorem C7_counterexample :
    (((mkCachedSched dTwo [evA0, evB1]).getEvents.1.getFitness.1.writeAliased
        1 evB0).getFitness.2 = 1)
    ∧ fitness dTwo
        { events := ((mkCachedSched dTwo [evA0, evB1]).getEvents.1.getFitness.1.writeAliased
            1 evB0).events } = 1/2 := by
  have h1 : numOfConflicts dTwo [evA0, evB1] = 0 := by decide
  have h2 : numOfConflicts dTwo [evA0, evB0] = 1 := by decide
  have hset : ([evA0, evB1].set 1 evB0) = [evA0, evB0] := rfl
  constructor
  · simp [mkCachedSched, CachedSched.getEvents, CachedSched.getFitness,
      CachedSched.writeAliased, hset, h1]
  · simp only [mkCachedSched, CachedSched.getEvents, CachedSched.getFitness,
      CachedSched.writeAliased, hset, fitness]
    simp [h2]
    norm_num

/-- C7 amended: the cache is invalidated by reads of the `events` accessor,
not by writes: a fitness read after a write that goes through the accessor
(as every engine mutation site does) returns the value recomputed from the
current assignments, and so does a fitness read right after any accessor
read; only a write through a retained `Event` reference that skips the
accessor can expose a stale value (see the counterexample). -/
theorem C7_cache_via_getter (c : CachedSched) (i : Nat) (e : Event) :
    (c.writeViaGetter i e).getFitness.2
      = fitness c.data { events := (c.writeViaGetter i e).events }
    ∧ c.getEvents.1.getFitness.2 = fitness c.data { events := c.getEvents.1.events } := by
  constructor
  · simp [CachedSched.writeViaGetter, CachedSched.getFitness, fitness]
  · simp [CachedSched.getEvents, CachedSched.getFitness, fitness]

/-! ## C5: Event-instance sharing between chromosomes -/

lemma pfitness_append_of_ptrs_lt (d : Data) (st : Store) (extra : List Event)
    (q : PSched) (hq : ∀ p ∈ q.events, p < st.length) :
    pfitness d (st ++ extra) q = pfitness d st q := by
  unfold pfitness derefSched
  have hmap : q.events.map (fun p => (st ++ extra).getD p junkEvent)
      = q.events.map (fun p => st.getD p junkEvent) :=
    List.map_congr_left (fun p hp => List.getD_append st extra junkEvent p (hq p hp))
  rw [hmap]

/-- C5 counterexample: crossover of two one-event parents under the constant
stream `3/5` (every coin flip picks parent 1) yields a child whose events
array *is* parent 1's events array — the Event instance is shared.  Writing
that shared Event's room through the child's own position-0 reference
(re-targeting it to the nonexistent room 5) then changes parent 1's fitness
from `1` to `1/2`: a write in one chromosome is visible in another, contrary
to the claim. -/
theorem C5_counterexample :
    (pcrossoverSchedule dOne [evA0, evA0] { events := [0] } { events := [1] }
        (constStream (3/5))).2.1.events = ({ events := [0] } : PSched).events
    ∧ pfitness dOne
        (storeWrite
          (pcrossoverSchedule dOne [evA0, evA0] { events := [0] } { events := [1] }
            (constStream (3/5))).1
          ((pcrossoverSchedule dOne [evA0, evA0] { events := [0] } { events := [1] }
            (constStream (3/5))).2.1.events.getD 0 0)
          evBad)
        { events := [0] }
      ≠ pfitness dOne
          (pcrossoverSchedule dOne [evA0, evA0] { events := [0] } { events := [1] }
            (constStream (3/5))).1
          { events := [0] } := by
  have htail : (constStream (3/5)).tail = constStream (3/5) := rfl
  have hfloor : randIndex (3/5) 1 = 0 := by
    unfold randIndex
    norm_num
  have hslot : getRandomTimeSlot dOne (3/5) = 0 := by
    have h1 : dOne.totalTimeSlots = 1 := rfl
    simp [getRandomTimeSlot, h1, hfloor]
  have havail : availableRoomIdxs dOne 0 = [0] := by decide
  have hroom : getAvailableRoomT dOne 0 (3/5) = 0 := by
    simp [getAvailableRoomT, havail, hfloor]
  have hhead : (constStream (3/5)).head = 3/5 := rfl
  have hinit : initEvents dOne 0 dOne.events (constStream (3/5))
      = ([evA0], constStream (3/5)) := by
    have he : dOne.events = [{ id := 0, name := "A" }] := rfl
    rw [he]
    simp only [initEvents, htail, hhead, hslot, hroom]
    rfl
  have hpinit : pinitSchedule dOne [evA0, evA0] (constStream (3/5))
      = ([evA0, evA0, evA0], { events := [2] }, constStream (3/5)) := by
    simp [pinitSchedule, hinit]
    decide
  have hgenes : crossoverGenes ({ events := [0] } : PSched).events
      ({ events := [1] } : PSched).events 0 0 1 (constStream (3/5))
      = ([0], constStream (3/5)) := by
    have hcoin : (1 : ℚ)/2 < (constStream (3/5)).head := by
      rw [hhead]
      norm_num
    simp only [crossoverGenes, htail, if_pos hcoin]
    rfl
  have hcross : (pcrossoverSchedule dOne [evA0, evA0] { events := [0] }
      { events := [1] } (constStream (3/5))).2.1.events = [0] := by
    simp [pcrossoverSchedule, hpinit, hgenes]
  have hstore : (pcrossoverSchedule dOne [evA0, evA0] { events := [0] }
      { events := [1] } (constStream (3/5))).1 = [evA0, evA0, evA0] := by
    simp [pcrossoverSchedule, hpinit]
  refine ⟨hcross, ?_⟩
  rw [hcross, hstore]
  have h1 : numOfConflicts dOne [evBad] = 1 := by decide
  have h2 : numOfConflicts dOne [evA0] = 0 := by decide
  unfold storeWrite pfitness derefSched fitness
  norm_num [h1, h2]

/-- C5 amended: chromosomes *do* share Event instances — a crossover child
aliases its parents' events (see the counterexample) — but the genetic
operators never write to an existing Event: crossover and mutation only
allocate fresh Events at the end of the heap and re-point positions, so
running them leaves the assignments and the fitness of every pre-existing
chromosome (parents, elites) unchanged.  Only a write through a shared
Event's setter (which the engine never performs after initialization) is
visible across chromosomes. -/
theorem C5_operators_never_write (d : Data) (st : Store) (p1 p2 m : PSched)
    (s s2 : RStream) :
    (∃ extra, (pcrossoverSchedule d st p1 p2 s).1 = st ++ extra)
    ∧ (∃ extra, (pmutateSchedule d st m s2).1 = st ++ extra)
    ∧ (∀ (extra : List Event) (q : PSched), (∀ p ∈ q.events, p < st.length) →
        pfitness d (st ++ extra) q = pfitness d st q) :=
  ⟨⟨(initEvents d 0 d.events s).1, rfl⟩,
   ⟨(initEvents d 0 d.events s2).1, rfl⟩,
   fun extra q hq => pfitness_append_of_ptrs_lt d st extra q hq⟩

/-- Witness for C5 amended at concrete inputs: the store is untouched under
the append, and the parent chromosome's fitness is unchanged. -/
theorem C5_operators_never_write_witness :
    (∃ extra, (pcrossoverSchedule dOne [evA0, evA0] { events := [0] }
        { events := [1] } (constStream (3/5))).1 = [evA0, evA0] ++ extra)
    ∧ (∀ p ∈ ({ events := [0] } : PSched).events, p < ([evA0, evA0] : Store).length)
    ∧ pfitness dOne ([evA0, evA0] ++ [evA0]) { events := [0] }
        = pfitness dOne [evA0, evA0] { events := [0] } :=
  ⟨(C5_operators_never_write dOne [evA0, evA0] { events := [0] } { events := [1] }
      { events := [0] } (constStream (3/5)) (constStream (3/5))).1,
   by decide,
   (C5_operators_never_write dOne [evA0, evA0] { events := [0] } { events := [1] }
      { events := [0] } (constStream (3/5)) (constStream (3/5))).2.2
     [evA0] { events := [0] } (by decide)⟩

/-! ## Structural lemmas about the genetic operators -/

lemma initEvents_length (d : Data) :
    ∀ (l : List ProtoEvent) (i : Nat) (s : RStream),
      (initEvents d i l s).1.length = l.length := by
  intro l
  induction l with
  | nil => intro i s; rfl
  | cons pe rest ih =>
    intro i s
    simp only [initEvents, List.length_cons]
    rw [ih]

lemma initSchedule_length (d : Data) (s : RStream) :
    (initSchedule d s).1.events.length = d.events.length :=
  initEvents_length d d.events 0 s

lemma crossoverGenes_length {α : Type} (p1 p2 : List α) (junk : α) :
    ∀ (n i : Nat) (s : RStream), (crossoverGenes p1 p2 junk i n s).1.length = n := by
  intro n
  induction n with
  | zero => intro i s; rfl
  | succ m ih =>
    intro i s
    simp only [crossoverGenes, List.length_cons]
    rw [ih]

lemma crossoverGenes_getD {α : Type} (p1 p2 : List α) (junk : α) :
    ∀ (n i k : Nat) (s : RStream), k < n →
      (crossoverGenes p1 p2 junk i n s).1.getD k junk = p1.getD (i + k) junk
      ∨ (crossoverGenes p1 p2 junk i n s).1.getD k junk = p2.getD (i + k) junk := by
  intro n
  induction n with
  | zero => intro i k s hk; exact absurd hk (Nat.not_lt_zero k)
  | succ m ih =>
    intro i k s hk
    cases k with
    | zero =>
      simp only [crossoverGenes, List.getD_cons_zero, Nat.add_zero]
      by_cases hc : (1 : ℚ)/2 < s.head
      · left
        rw [if_pos hc]
      · right
        rw [if_neg hc]
    | succ k2 =>
      simp only [crossoverGenes, List.getD_cons_succ]
      have h := ih (i + 1) k2 s.tail (Nat.lt_of_succ_lt_succ hk)
      rwa [Nat.add_comm i (k2 + 1), Nat.add_assoc k2 1 i, Nat.add_comm 1 i,
        Nat.add_comm k2 (i + 1)]

/-- C9: every position of a crossover child holds exactly parent 1's or
parent 2's assignment at that position (the freshly initialized child's own
random defaults are all overwritten by the per-position coin flip), for
parents of the chromosome length. -/
theorem C9_crossover_coverage (d : Data) (p1 p2 : Sched) (s : RStream)
    (h1 : p1.events.length = d.events.length)
    (h2 : p2.events.length = d.events.length) :
    (crossoverSchedule d p1 p2 s).1.events.length = d.events.length
    ∧ ∀ i, i < d.events.length →
        ((crossoverSchedule d p1 p2 s).1.events.getD i junkEvent
            = p1.events.getD i junkEvent
         ∨ (crossoverSchedule d p1 p2 s).1.events.getD i junkEvent
            = p2.events.getD i junkEvent) := by
  constructor
  · show (crossoverGenes p1.events p2.events junkEvent 0
        (initSchedule d s).1.events.length (initSchedule d s).2).1.length
      = d.events.length
    rw [crossoverGenes_length, initSchedule_length]
  · intro i hi
    have hk : i < (initSchedule d s).1.events.length := by
      rw [initSchedule_length]
      exact hi
    have h := crossoverGenes_getD p1.events p2.events junkEvent
      (initSchedule d s).1.events.length 0 i (initSchedule d s).2 hk
    rwa [Nat.zero_add] at h

/-- Witness for C9 at one-event parents of the one-event instance `dOne`. -/
theorem C9_crossover_coverage_witness :
    (({ events := [evA0] } : Sched).events.length = dOne.events.length
      ∧ ({ events := [evB0] } : Sched).events.length = dOne.events.length)
    ∧ ((crossoverSchedule dOne { events := [evA0] } { events := [evB0] }
          (constStream 0)).1.events.length = dOne.events.length
      ∧ ∀ i, i < dOne.events.length →
          ((crossoverSchedule dOne { events := [evA0] } { events := [evB0] }
              (constStream 0)).1.events.getD i junkEvent
              = ({ events := [evA0] } : Sched).events.getD i junkEvent
           ∨ (crossoverSchedule dOne { events := [evA0] } { events := [evB0] }
              (constStream 0)).1.events.getD i junkEvent
              = ({ events := [evB0] } : Sched).events.getD i junkEvent)) :=
  ⟨⟨by decide, by decide⟩,
   C9_crossover_coverage dOne { events := [evA0] } { events := [evB0] }
     (constStream 0) (by decide) (by decide)⟩

lemma mkChildren_length (d : Data) (pop : List Sched) :
    ∀ (n : Nat) (s : RStream), (mkChildren d pop n s).1.length = n := by
  intro n
  induction n with
  | zero => intro s; rfl
  | succ m ih =>
    intro s
    simp only [mkChildren, List.length_cons]
    rw [ih]

lemma mutateFrom_length (d : Data) :
    ∀ (n i : Nat) (pop : List Sched) (s : RStream),
      (mutateFrom d i n pop s).1.length = pop.length := by
  intro n
  induction n with
  | zero => intro i pop s; rfl
  | succ m ih =>
    intro i pop s
    simp only [mutateFrom]
    rw [ih]
    exact List.length_set pop i _

lemma crossoverPopulation_length (d : Data) (pop : List Sched) (s : RStream) :
    (crossoverPopulation d pop s).1.length = POPULATION_SIZE := by
  unfold crossoverPopulation
  simp only [List.length_append, List.length_map, List.length_range,
    mkChildren_length]
  decide

lemma evolve_length (d : Data) (pop : List Sched) (s : RStream) :
    (evolve d pop s).1.length = POPULATION_SIZE := by
  unfold evolve mutatePopulation
  rw [mutateFrom_length, crossoverPopulation_length]

/-- C8: `evolve` maps a population of exactly `POPULATION_SIZE` chromosomes to
a population of exactly `POPULATION_SIZE` chromosomes (indeed its output has
that size regardless of the input size: two elite pushes plus
`POPULATION_SIZE - 2` children, with the in-place mutation pass preserving
length). -/
theorem C8_evolve_size (d : Data) (pop : List Sched) (s : RStream)
    (h : pop.length = POPULATION_SIZE) :
    (evolve d pop s).1.length = POPULATION_SIZE :=
  evolve_length d pop s

/-- Witness for C8 at a concrete 20-schedule population. -/
theorem C8_evolve_size_witness :
    (List.replicate 20 junkSched).length = POPULATION_SIZE
    ∧ (evolve dOne (List.replicate 20 junkSched) (constStream 0)).1.length
        = POPULATION_SIZE :=
  ⟨by decide,
   C8_evolve_size dOne (List.replicate 20 junkSched) (constStream 0) (by decide)⟩

/-! ## Elitism: the first `NUMB_OF_ELITE_EVENTS` slots are frames -/

lemma getD_set_ne {α : Type} (l : List α) (i j : Nat) (a dflt : α) (hij : i ≠ j) :
    (l.set i a).getD j dflt = l.getD j dflt := by
  by_cases hj : j < l.length
  · have hj2 : j < (l.set i a).length := by
      rw [List.length_set]
      exact hj
    rw [List.getD_eq_getElem _ _ hj2, List.getD_eq_getElem _ _ hj]
    exact List.getElem_set_ne hij _
  · have h1 : (l.set i a).length ≤ j := by
      rw [List.length_set]
      omega
    have h2 : l.length ≤ j := by omega
    rw [List.getD_eq_default _ _ h1, List.getD_eq_default _ _ h2]

lemma mutateFrom_getD_lt (d : Data) :
    ∀ (n i j : Nat) (pop : List Sched) (s : RStream), j < i →
      (mutateFrom d i n pop s).1.getD j junkSched = pop.getD j junkSched := by
  intro n
  induction n with
  | zero => intro i j pop s _; rfl
  | succ m ih =>
    intro i j pop s hj
    simp only [mutateFrom]
    rw [ih (i + 1) j _ _ (Nat.lt_succ_of_lt hj)]
    exact getD_set_ne _ _ _ _ _ (Ne.symm (Nat.ne_of_lt hj))

lemma crossoverPopulation_getD_elite (d : Data) (pop : List Sched) (s : RStream)
    (i : Nat) (hi : i < NUMB_OF_ELITE_EVENTS) :
    (crossoverPopulation d pop s).1.getD i junkSched = pop.getD i junkSched := by
  unfold crossoverPopulation
  have hlen : ((List.range NUMB_OF_ELITE_EVENTS).map
      (fun k => pop.getD k junkSched)).length = NUMB_OF_ELITE_EVENTS := by
    simp
  have hi2 : i < ((List.range NUMB_OF_ELITE_EVENTS).map
      (fun k => pop.getD k junkSched)).length := by
    rw [hlen]
    exact hi
  rw [List.getD_append _ _ _ i hi2, List.getD_eq_getElem _ _ hi2]
  simp

lemma evolve_getD_elite (d : Data) (pop : List Sched) (s : RStream)
    (i : Nat) (hi : i < NUMB_OF_ELITE_EVENTS) :
    (evolve d pop s).1.getD i junkSched = pop.getD i junkSched := by
  unfold evolve mutatePopulation
  rw [mutateFrom_getD_lt d (POPULATION_SIZE - NUMB_OF_ELITE_EVENTS)
    NUMB_OF_ELITE_EVENTS i _ _ hi]
  exact crossoverPopulation_getD_elite d pop s i hi

lemma getD_mem_of_lt {α : Type} (l : List α) (i : Nat) (dflt : α)
    (hi : i < l.length) : l.getD i dflt ∈ l := by
  rw [List.getD_eq_getElem _ _ hi]
  exact List.getElem_mem hi

lemma sortByFitness_perm (d : Data) (l : List Sched) : (sortByFitness d l).Perm l :=
  List.mergeSort_perm l (schedLE d)

/-- C3: the top `NUMB_OF_ELITE_EVENTS` chromosomes of the (sorted)
generation-N population appear unmodified by value — same assignment state
and hence same fitness — at the same leading indices of `evolve`'s output,
they are members of the sorted generation-N+1 population, and the mutation
pass never touches any index below `NUMB_OF_ELITE_EVENTS`. -/
theorem C3_elitism (d : Data) (pop : List Sched) (s : RStream) (i : Nat)
    (hi : i < NUMB_OF_ELITE_EVENTS) :
    (evolve d pop s).1.getD i junkSched = pop.getD i junkSched
    ∧ fitness d ((evolve d pop s).1.getD i junkSched)
        = fitness d (pop.getD i junkSched)
    ∧ pop.getD i junkSched ∈ sortByFitness d (evolve d pop s).1
    ∧ ∀ (p : List Sched) (s2 : RStream),
        (mutatePopulation d p s2).1.getD i junkSched = p.getD i junkSched := by
  have he := evolve_getD_elite d pop s i hi
  refine ⟨he, by rw [he], ?_, ?_⟩
  · have hlen : i < (evolve d pop s).1.length := by
      rw [evolve_length]
      exact Nat.lt_of_lt_of_le hi (by decide)
    have hmem : (evolve d pop s).1.getD i junkSched ∈ (evolve d pop s).1 :=
      getD_mem_of_lt _ i junkSched hlen
    rw [he] at hmem
    exact ((sortByFitness_perm d (evolve d pop s).1).mem_iff).mpr hmem
  · intro p s2
    exact mutateFrom_getD_lt d (POPULATION_SIZE - NUMB_OF_ELITE_EVENTS)
      NUMB_OF_ELITE_EVENTS i p s2 hi

/-- Witness for C3 at index 0 of a concrete population. -/
theorem C3_elitism_witness :
    0 < NUMB_OF_ELITE_EVENTS
    ∧ ((evolve dOne [junkSched] (constStream 0)).1.getD 0 junkSched
          = [junkSched].getD 0 junkSched
      ∧ fitness dOne ((evolve dOne [junkSched] (constStream 0)).1.getD 0 junkSched)
          = fitness dOne ([junkSched].getD 0 junkSched)
      ∧ [junkSched].getD 0 junkSched
          ∈ sortByFitness dOne (evolve dOne [junkSched] (constStream 0)).1
      ∧ ∀ (p : List Sched) (s2 : RStream),
          (mutatePopulation dOne p s2).1.getD 0 junkSched = p.getD 0 junkSched) :=
  ⟨by decide, C3_elitism dOne [junkSched] (constStream 0) 0 (by decide)⟩

/-! ## Sorting: the head of a sorted population carries the maximum fitness -/

lemma schedLE_trans (d : Data) : ∀ (a b c : Sched),
    schedLE d a b = true → schedLE d b c = true → schedLE d a c = true := by
  intro a b c hab hbc
  simp only [schedLE, decide_eq_true_eq] at hab hbc ⊢
  exact le_trans hbc hab

lemma schedLE_total (d : Data) : ∀ (a b : Sched),
    (schedLE d a b || schedLE d b a) = true := by
  intro a b
  simp only [schedLE, Bool.or_eq_true, decide_eq_true_eq]
  exact le_total (fitness d b) (fitness d a)

lemma sortByFitness_pairwise (d : Data) (l : List Sched) :
    (sortByFitness d l).Pairwise (fun a b => fitness d b ≤ fitness d a) := by
  have h := List.sorted_mergeSort (schedLE_trans d) (schedLE_total d) l
  exact h.imp (fun hab => by simpa [schedLE] using hab)

lemma le_bestF_of_mem_sorted (d : Data) (l : List Sched) (x : Sched)
    (hx : x ∈ sortByFitness d l) :
    fitness d x ≤ bestF d (sortByFitness d l) := by
  have hp := sortByFitness_pairwise d l
  cases hsl : sortByFitness d l with
  | nil =>
    rw [hsl] at hx
    exact absurd hx (List.not_mem_nil x)
  | cons a t =>
    rw [hsl] at hx hp
    rcases List.mem_cons.mp hx with h | h
    · rw [h]
      exact le_refl _
    · exact (List.pairwise_cons.mp hp).1 x h

lemma le_bestF_of_mem (d : Data) (l : List Sched) (x : Sched) (hx : x ∈ l) :
    fitness d x ≤ bestF d (sortByFitness d l) :=
  le_bestF_of_mem_sorted d l x (((sortByFitness_perm d l).mem_iff).mpr hx)

/-- The population invariant the driver re-establishes at every loop check:
every member's fitness is at most the head's (read) fitness. -/
def IsSortedPop (d : Data) (pop : List Sched) : Prop :=
  ∀ x ∈ pop, fitness d x ≤ bestF d pop

lemma isSortedPop_sort (d : Data) (l : List Sched) :
    IsSortedPop d (sortByFitness d l) :=
  fun x hx => le_bestF_of_mem_sorted d l x hx

/-- Monotonicity of the observed best fitness across one generational step:
the previous head is carried as elite 0, untouched by mutation, so the next
sorted population's head fitness cannot be lower. -/
lemma bestF_step (d : Data) (pop : List Sched) (s : RStream) :
    bestF d pop ≤ bestF d (sortByFitness d (evolve d pop s).1) := by
  have h0 := evolve_getD_elite d pop s 0 (by decide)
  have hlen : 0 < (evolve d pop s).1.length := by
    rw [evolve_length]
    decide
  have hmem := getD_mem_of_lt (evolve d pop s).1 0 junkSched hlen
  have h := le_bestF_of_mem d (evolve d pop s).1 _ hmem
  rw [h0] at h
  exact h

/-! ## The search loop: termination, snapshots, monotonicity -/

lemma searchLoop_used_le (d : Data) :
    ∀ (fuel : Nat) (pop : List Sched) (s : RStream),
      (searchLoop d fuel pop s).2.1 ≤ fuel := by
  intro fuel
  induction fuel with
  | zero => intro pop s; exact Nat.le_refl 0
  | succ k ih =>
    intro pop s
    by_cases h : fitness d (pop.getD 0 junkSched) = 1
    · simp only [searchLoop, if_pos h]
      exact Nat.zero_le _
    · simp only [searchLoop, if_neg h]
      exact Nat.succ_le_succ (ih _ _)

lemma searchLoop_snaps_cons (d : Data) (fuel : Nat) (pop : List Sched) (s : RStream) :
    ∃ t, (searchLoop d fuel pop s).2.2 = pop :: t := by
  cases fuel with
  | zero => exact ⟨[], rfl⟩
  | succ k =>
    by_cases h : fitness d (pop.getD 0 junkSched) = 1
    · simp only [searchLoop, if_pos h]
      exact ⟨[], rfl⟩
    · simp only [searchLoop, if_neg h]
      exact ⟨_, rfl⟩

lemma searchLoop_final_mem (d : Data) :
    ∀ (fuel : Nat) (pop : List Sched) (s : RStream),
      (searchLoop d fuel pop s).1 ∈ (searchLoop d fuel pop s).2.2 := by
  intro fuel
  induction fuel with
  | zero => intro pop s; exact List.mem_singleton.mpr rfl
  | succ k ih =>
    intro pop s
    by_cases h : fitness d (pop.getD 0 junkSched) = 1
    · simp only [searchLoop, if_pos h]
      exact List.mem_singleton.mpr rfl
    · simp only [searchLoop, if_neg h]
      exact List.mem_cons_of_mem pop (ih _ _)

lemma searchLoop_mono (d : Data) :
    ∀ (fuel : Nat) (pop : List Sched) (s : RStream),
      ∀ snap ∈ (searchLoop d fuel pop s).2.2,
        bestF d snap ≤ bestF d (searchLoop d fuel pop s).1 := by
  intro fuel
  induction fuel with
  | zero =>
    intro pop s snap hsnap
    simp only [searchLoop] at hsnap ⊢
    rw [List.mem_singleton.mp hsnap]
  | succ k ih =>
    intro pop s snap hsnap
    by_cases h : fitness d (pop.getD 0 junkSched) = 1
    · simp only [searchLoop, if_pos h] at hsnap ⊢
      rw [List.mem_singleton.mp hsnap]
    · simp only [searchLoop, if_neg h] at hsnap ⊢
      rcases List.mem_cons.mp hsnap with heq | hmem
      · obtain ⟨t, ht⟩ := searchLoop_snaps_cons d k
          (sortByFitness d (evolve d pop s).1) (evolve d pop s).2
        have h2 := ih (sortByFitness d (evolve d pop s).1) (evolve d pop s).2
          (sortByFitness d (evolve d pop s).1)
          (by rw [ht]; exact List.mem_cons_self _ _)
        rw [heq]
        exact le_trans (bestF_step d pop s) h2
      · exact ih _ _ snap hmem

lemma searchLoop_perfect (d : Data) :
    ∀ (fuel : Nat) (pop : List Sched) (s : RStream),
      IsSortedPop d pop →
      (∃ snap ∈ (searchLoop d fuel pop s).2.2, ∃ c ∈ snap, fitness d c = 1) →
      bestF d (searchLoop d fuel pop s).1 = 1 := by
  intro fuel
  induction fuel with
  | zero =>
    intro pop s hs hex
    obtain ⟨snap, hsnap, c, hc, hc1⟩ := hex
    have hsp := List.mem_singleton.mp hsnap
    rw [hsp] at hc
    have hle : 1 ≤ bestF d pop := hc1 ▸ hs c hc
    have hge : bestF d pop ≤ 1 := fitness_le_one d (pop.getD 0 junkSched)
    exact le_antisymm hge hle
  | succ k ih =>
    intro pop s hs hex
    by_cases h : fitness d (pop.getD 0 junkSched) = 1
    · simp only [searchLoop, if_pos h]
      exact h
    · simp only [searchLoop, if_neg h] at hex ⊢
      obtain ⟨snap, hsnap, c, hc, hc1⟩ := hex
      rcases List.mem_cons.mp hsnap with heq | hmem
      · rw [heq] at hc
        have hle : 1 ≤ bestF d pop := hc1 ▸ hs c hc
        have hge : bestF d pop ≤ 1 := fitness_le_one d (pop.getD 0 junkSched)
        exact absurd (le_antisymm hge hle) h
      · exact ih _ _ (isSortedPop_sort d _) ⟨snap, hmem, c, hc, hc1⟩

lemma searchLoop_chain (d : Data) :
    ∀ (fuel : Nat) (pop : List Sched) (s : RStream),
      List.Chain' (fun a b => bestF d a ≤ bestF d b) (searchLoop d fuel pop s).2.2 := by
  intro fuel
  induction fuel with
  | zero => intro pop s; exact List.chain'_singleton pop
  | succ k ih =>
    intro pop s
    by_cases h : fitness d (pop.getD 0 junkSched) = 1
    · simp only [searchLoop, if_pos h]
      exact List.chain'_singleton pop
    · simp only [searchLoop, if_neg h]
      rw [List.chain'_cons']
      refine ⟨?_, ih _ _⟩
      intro y hy
      obtain ⟨t, ht⟩ := searchLoop_snaps_cons d k
        (sortByFitness d (evolve d pop s).1) (evolve d pop s).2
      rw [ht] at hy
      simp only [List.head?_cons, Option.mem_def, Option.some.injEq] at hy
      rw [← hy]
      exact bestF_step d pop s

lemma runSearch_adj (d : Data) (s : RStream) (i : Nat)
    (hi : i + 1 < (runSearch d s).2.2.length) :
    bestF d ((runSearch d s).2.2.getD i [])
      ≤ bestF d ((runSearch d s).2.2.getD (i + 1) []) := by
  have hc : List.Chain' (fun a b => bestF d a ≤ bestF d b) (runSearch d s).2.2 :=
    searchLoop_chain d MAX_GENERATIONS _ _
  have h := (List.chain'_iff_get.mp hc) i (by omega)
  have hi0 : i < (runSearch d s).2.2.length := by omega
  rw [List.getD_eq_getElem _ _ hi0, List.getD_eq_getElem _ _ hi]
  simpa using h

/-- C2: for every problem instance and random stream, the search loop performs
at most `MAX_GENERATIONS` generations; the returned population is one of the
generation snapshots and its observed best fitness dominates every
generation's observed best (so the result is the best chromosome observed
over the whole run); and if any generation ever contains a fitness-1.0
chromosome, the returned best fitness is exactly `1.0`. -/
theorem C2_driver_termination (d : Data) (s : RStream) :
    (runSearch d s).2.1 ≤ MAX_GENERATIONS
    ∧ (runSearch d s).1 ∈ (runSearch d s).2.2
    ∧ (∀ snap ∈ (runSearch d s).2.2, bestF d snap ≤ bestF d (runSearch d s).1)
    ∧ ((∃ snap ∈ (runSearch d s).2.2, ∃ c ∈ snap, fitness d c = 1) →
        bestF d (runSearch d s).1 = 1) := by
  refine ⟨?_, ?_, ?_, ?_⟩
  · exact searchLoop_used_le d MAX_GENERATIONS _ _
  · exact searchLoop_final_mem d MAX_GENERATIONS _ _
  · exact searchLoop_mono d MAX_GENERATIONS _ _
  · exact searchLoop_perfect d MAX_GENERATIONS _ _
      (isSortedPop_sort d (initialPopulation d POPULATION_SIZE s).1)

/-- C6 counterexample to the claim as stated: there is *no* problem instance,
random stream and generation index at which the observed best-of-generation
fitness strictly decreases into the next generation — elitism carries the
sorted head unmodified, so the sequence is monotone non-decreasing. -/
theorem C6_counterexample :
    ¬ ∃ (d : Data) (s : RStream) (i : Nat),
        i + 1 < (runSearch d s).2.2.length
        ∧ bestF d ((runSearch d s).2.2.getD (i + 1) [])
            < bestF d ((runSearch d s).2.2.getD i []) := by
  rintro ⟨d, s, i, hlen, hdec⟩
  exact absurd (runSearch_adj d s i hlen) (not_le.mpr hdec)

/-- C6 amended: between any two consecutive generation snapshots of a run,
the observed best fitness never decreases (monotone non-decreasing), because
the generation's best chromosome is carried as elite 0 and never mutated. -/
theorem C6_monotone_generations (d : Data) (s : RStream) (i : Nat)
    (hi : i + 1 < (runSearch d s).2.2.length) :
    bestF d ((runSearch d s).2.2.getD i [])
      ≤ bestF d ((runSearch d s).2.2.getD (i + 1) []) :=
  runSearch_adj d s i hi

/-! ## A concrete run with at least two generations (witness for C6) -/

/-- The schedule every `initialize` call on `dPair` under the all-zero stream
produces: both events in room 0, slot 0 — one double-booking conflict. -/
def scPair : Sched := { events := [evA0, evB0] }

lemma initSchedule_dPair_const0 :
    initSchedule dPair (constStream 0) = (scPair, constStream 0) := by
  have htail : (constStream 0).tail = constStream 0 := rfl
  have hhead : (constStream 0).head = 0 := rfl
  have hfloor : randIndex 0 1 = 0 := by
    unfold randIndex
    norm_num
  have hslot : getRandomTimeSlot dPair 0 = 0 := by
    have h1 : dPair.totalTimeSlots = 1 := rfl
    simp [getRandomTimeSlot, h1, hfloor]
  have havail : availableRoomIdxs dPair 0 = [0] := by decide
  have hroom : getAvailableRoomT dPair 0 0 = 0 := by
    simp [getAvailableRoomT, havail, hfloor]
  have he : dPair.events = [{ id := 0, name := "A" }, { id := 1, name := "B" }] := rfl
  simp only [initSchedule, he, initEvents, htail, hhead, hslot, hroom]
  rfl

lemma initialPopulation_const (d : Data) (sc : Sched) (s : RStream)
    (h : initSchedule d s = (sc, s)) :
    ∀ n, initialPopulation d n s = (List.replicate n sc, s) := by
  intro n
  induction n with
  | zero => rfl
  | succ k ih => simp [initialPopulation, h, ih, List.replicate_succ]

lemma sortByFitness_ne_nil (d : Data) (l : List Sched) (hne : l ≠ []) :
    sortByFitness d l ≠ [] := by
  intro h0
  have hp := sortByFitness_perm d l
  rw [h0] at hp
  exact hne hp.symm.eq_nil

lemma bestF_sort_ne_one (d : Data) (l : List Sched) (hne : l ≠ [])
    (hall : ∀ x ∈ l, fitness d x ≠ 1) :
    ¬ fitness d ((sortByFitness d l).getD 0 junkSched) = 1 := by
  have hsne := sortByFitness_ne_nil d l hne
  have hlen : 0 < (sortByFitness d l).length := List.length_pos.mpr hsne
  have hmem := getD_mem_of_lt (sortByFitness d l) 0 junkSched hlen
  exact hall _ (((sortByFitness_perm d l).mem_iff).mp hmem)

lemma searchLoop_snaps_len_two (d : Data) (fuel : Nat) (pop : List Sched)
    (s : RStream) (hf : 0 < fuel)
    (h : ¬ fitness d (pop.getD 0 junkSched) = 1) :
    1 < (searchLoop d fuel pop s).2.2.length := by
  cases fuel with
  | zero => omega
  | succ k =>
    simp only [searchLoop, if_neg h]
    obtain ⟨t, ht⟩ := searchLoop_snaps_cons d k
      (sortByFitness d (evolve d pop s).1) (evolve d pop s).2
    rw [ht]
    simp

/-- Witness for C6 amended: the one-room one-slot two-event instance makes
every chromosome carry a conflict, so the initial best fitness is `1/2 ≠ 1`
and the run performs at least one generation step, yielding two comparable
consecutive snapshots. -/
theorem C6_monotone_generations_witness :
    0 + 1 < (runSearch dPair (constStream 0)).2.2.length
    ∧ bestF dPair ((runSearch dPair (constStream 0)).2.2.getD 0 [])
        ≤ bestF dPair ((runSearch dPair (constStream 0)).2.2.getD (0 + 1) []) := by
  have hpop := initialPopulation_const dPair scPair (constStream 0)
    initSchedule_dPair_const0 POPULATION_SIZE
  have hconf : numOfConflicts dPair scPair.events = 1 := by decide
  have hfit : fitness dPair scPair ≠ 1 := by
    rw [fitness_def, hconf]
    norm_num
  have hall : ∀ x ∈ List.replicate POPULATION_SIZE scPair, fitness dPair x ≠ 1 := by
    intro x hx
    rw [List.eq_of_mem_replicate hx]
    exact hfit
  have hne : (List.replicate POPULATION_SIZE scPair) ≠ ([] : List Sched) := by decide
  have hbest := bestF_sort_ne_one dPair (List.replicate POPULATION_SIZE scPair) hne hall
  have hlen : 0 + 1 < (runSearch dPair (constStream 0)).2.2.length := by
    show 0 + 1 < (searchLoop dPair MAX_GENERATIONS
      (sortByFitness dPair
        (initialPopulation dPair POPULATION_SIZE (constStream 0)).1)
      (initialPopulation dPair POPULATION_SIZE (constStream 0)).2).2.2.length
    rw [hpop]
    exact searchLoop_snaps_len_two dPair MAX_GENERATIONS _ _ (by decide) hbest
  exact ⟨hlen, C6_monotone_generations dPair (constStream 0) 0 hlen⟩

/-! ## C10: room `Room 1` is available at every drawable slot -/

lemma mkData_rooms_length (r : Nat) (names : List String) (N : Nat) :
    (mkData r names N).rooms.length = r := by
  simp [mkData]

lemma randIndex_lt (q : ℚ) (len : Nat) (h0 : 0 ≤ q) (h1 : q < 1)
    (hlen : 0 < len) : randIndex q len < len := by
  unfold randIndex
  have hql : q * (len : ℚ) < len := by
    calc q * (len : ℚ) < 1 * len := by
          apply mul_lt_mul_of_pos_right h1
          exact_mod_cast hlen
    _ = len := one_mul _
  have hfl : Int.floor (q * (len : ℚ)) < (len : ℤ) := by
    apply Int.floor_lt.mpr
    exact_mod_cast hql
  omega

lemma mkData_rooms_getD (r : Nat) (names : List String) (N : Nat) (i : Nat)
    (hi : i < r) :
    (mkData r names N).rooms.getD i junkRoom
      = { number := "Room " ++ toString (i + 1),
          availabilitySchedule := (List.range N).map (fun j => decide (i ≤ j)) } := by
  have hlen : i < (mkData r names N).rooms.length := by
    rw [mkData_rooms_length]
    exact hi
  rw [List.getD_eq_getElem _ _ hlen]
  simp [mkData]

lemma room_zero_available (r : Nat) (names : List String) (N : Nat)
    (slot : Nat) (hr : 1 ≤ r) (hslot : slot < N) :
    ((mkData r names N).rooms.getD 0 junkRoom).isAvailable slot = true := by
  rw [mkData_rooms_getD r names N 0 (by omega)]
  unfold Room.isAvailable
  have hlen : slot < ((List.range N).map (fun j => decide (0 ≤ j))).length := by
    simpa using hslot
  rw [List.getD_eq_getElem _ _ hlen]
  simp

lemma zero_mem_availableRoomIdxs (r : Nat) (names : List String) (N : Nat)
    (slot : Nat) (hr : 1 ≤ r) (hslot : slot < N) :
    0 ∈ availableRoomIdxs (mkData r names N) slot := by
  unfold availableRoomIdxs
  rw [List.mem_filter]
  constructor
  · rw [List.mem_range, mkData_rooms_length]
    omega
  · exact room_zero_available r names N slot hr hslot

lemma getRandomTimeSlot_lt (r : Nat) (names : List String) (N : Nat) (q : ℚ)
    (hq0 : 0 ≤ q) (hq1 : q < 1) (hN : 1 ≤ N) :
    getRandomTimeSlot (mkData r names N) q < N := by
  have hslots : (mkData r names N).totalTimeSlots = N := rfl
  have hidx : randIndex q N < N := randIndex_lt q N hq0 hq1 (by omega)
  unfold getRandomTimeSlot
  rw [hslots]
  rw [List.getD_eq_getElem _ _ (by simpa using hidx)]
  simpa using hidx

/-- C10: for an instance built with at least one room and a positive whole
number of slots, the first room's schedule is all-available over every slot
`getRandomTimeSlot` can return (any draw in `[0,1)`), so `getAvailableRoom`
always succeeds — the `'No available rooms for the given time slot'` branch
is unreachable during initialization and mutation. -/
theorem C10_no_room_error (roomCount : Nat) (names : List String) (N : Nat)
    (hr : 1 ≤ roomCount) (hN : 1 ≤ N) (q q2 : ℚ) (hq0 : 0 ≤ q) (hq1 : q < 1) :
    getRandomTimeSlot (mkData roomCount names N) q < N
    ∧ ((mkData roomCount names N).rooms.getD 0 junkRoom).isAvailable
        (getRandomTimeSlot (mkData roomCount names N) q) = true
    ∧ ∃ rm, getAvailableRoom (mkData roomCount names N)
        (getRandomTimeSlot (mkData roomCount names N) q) q2 = Except.ok rm := by
  have hslotlt := getRandomTimeSlot_lt roomCount names N q hq0 hq1 hN
  refine ⟨hslotlt, room_zero_available roomCount names N _ hr hslotlt, ?_⟩
  have hmem := zero_mem_availableRoomIdxs roomCount names N _ hr hslotlt
  have hnil := List.ne_nil_of_mem hmem
  unfold getAvailableRoom
  rw [if_neg (by simpa using hnil)]
  exact ⟨_, rfl⟩

/-- Witness for C10 at the concrete one-room one-slot instance with draw 0. -/
theorem C10_no_room_error_witness :
    ((1 : Nat) ≤ 1 ∧ (0 : ℚ) ≤ 0 ∧ (0 : ℚ) < 1)
    ∧ (getRandomTimeSlot (mkData 1 ["A"] 1) 0 < 1
      ∧ ((mkData 1 ["A"] 1).rooms.getD 0 junkRoom).isAvailable
          (getRandomTimeSlot (mkData 1 ["A"] 1) 0) = true
      ∧ ∃ rm, getAvailableRoom (mkData 1 ["A"] 1)
          (getRandomTimeSlot (mkData 1 ["A"] 1) 0) 0 = Except.ok rm) :=
  ⟨⟨le_refl 1, le_refl 0, zero_lt_one⟩,
   C10_no_room_error 1 ["A"] 1 (le_refl 1) (le_refl 1) 0 0 (le_refl 0) zero_lt_one⟩

end Scheduler
